import Mathlib

/-!
# Verification of the ps1-benchmark rendering and audio-streaming core

Shallow embedding of `main.c` from SimoSbara/ps1-benchmark.

The renderer side embeds `RenderBuffer` / `RenderContext`, `flip_buffers`
and `new_primitive`.  The ordering table is modelled as a list of depth
buckets, each bucket holding the list of primitive offsets linked into it.
The PSn00bSDK helpers behave as follows on the reversed table built by
`ClearOTagR` and submitted via `DrawOTagEnv(&ot[OT_LENGTH - 1], ...)`:

* `ClearOTagR(ot, n)` produces an empty reversed table: traversal starts at
  entry `n - 1` and walks down to entry `0`;
* `addPrim(&ot[z], p)` is `setaddr(p, getaddr(ot)); setaddr(ot, p)` — it
  inserts `p` at the head of bucket `z`'s chain, so the bucket's chain holds
  the most recently inserted primitive first;
* `DrawOTagEnv` makes the GPU process packets in chain order, so a packet
  that occurs earlier in the traversal is drawn earlier (and overdrawn by
  packets processed after it).

The audio side embeds `StreamReadContext`, `feed_stream`, `cd_read_handler`,
the `DrawAudioTest` per-frame feeder call, the sample-rate command handling
in `HandleAudioTestCommands`, and the header-derivation plus master-context
pre-fill loop of `setup_stream`.  The ring-buffer feeder library
(`stream.c` / `stream.h`, included by `main.c` but not part of the sources
here) is kept abstract: a `FeederView` records what the two query functions
`Stream_GetRefillLength` and `Stream_GetFeedPtr` report, and bytes passed to
`Stream_Feed` are accumulated per track.
-/

/-- `RAM_BUFFER_SIZE` from main.c: ring buffer size in bytes per audio track. -/
def RAM_BUFFER_SIZE : Nat := 0x18000

/-- `REFILL_THRESHOLD` from main.c: minimum number of sectors read at once. -/
def REFILL_THRESHOLD : Nat := 24

/-- `NUM_RECTANGLES` from main.c. -/
def NUM_RECTANGLES : Nat := 100

/-- `MAX_SONGS` from main.c. -/
def MAX_SONGS : Nat := 4

/-- `OT_LENGTH` from main.c: `NUM_RECTANGLES + 1`. -/
def OT_LENGTH : Nat := NUM_RECTANGLES + 1

/-- `BUFFER_LENGTH` from main.c: size of the per-frame primitive arena. -/
def BUFFER_LENGTH : Nat := 8192

/-! ## Render context (double-buffered command scheduler) -/

/-- One `RenderBuffer` of main.c.  The display/draw environments carry no
information the claims need, so only the ordering table is kept; the arena
itself is addressed through offsets, with the allocation cursor stored in
the context (as `next_packet` is in the C code).  `ot.getD z []` is the
chain of bucket `z`, most recently inserted primitive first (see the header
comment on `addPrim`). -/
structure RenderBuffer where
  ot : List (List Nat)
deriving DecidableEq, Repr

/-- The empty reversed ordering table produced by `ClearOTagR(ot, OT_LENGTH)`. -/
def clearOTagR : List (List Nat) := List.replicate OT_LENGTH []

/-- `RenderContext` of main.c: two render buffers, the allocation pointer
(kept as an offset into the active buffer's arena) and the active index. -/
structure RenderContext where
  buffer0 : RenderBuffer
  buffer1 : RenderBuffer
  next_packet : Nat
  active_buffer : Nat
deriving DecidableEq, Repr

/-- `ctx->buffers[i]` for `i` in `{0, 1}`. -/
def RenderContext.bufAt (c : RenderContext) (i : Nat) : RenderBuffer :=
  if i = 0 then c.buffer0 else c.buffer1

/-- Store back `ctx->buffers[i]` for `i` in `{0, 1}`. -/
def RenderContext.setBufAt (c : RenderContext) (i : Nat) (b : RenderBuffer) :
    RenderContext :=
  if i = 0 then { c with buffer0 := b } else { c with buffer1 := b }

/-- `flip_buffers` of main.c: after the (here irrelevant) GPU/vblank waits
and submissions, it executes `ctx->active_buffer ^= 1`,
`ctx->next_packet = disp_buffer->buffer` and
`ClearOTagR(disp_buffer->ot, OT_LENGTH)`, where `disp_buffer` is
`buffers[active_buffer ^ 1]` — the buffer that becomes the new active one. -/
def flip_buffers (c : RenderContext) : RenderContext :=
  let d := c.active_buffer ^^^ 1
  let cleared : RenderBuffer := { ot := clearOTagR }
  { c.setBufAt d cleared with active_buffer := d, next_packet := 0 }

/-- `n` successive calls to `flip_buffers`. -/
def flipN : Nat → RenderContext → RenderContext
  | 0, c => c
  | n + 1, c => flipN n (flip_buffers c)

/-- `new_primitive` of main.c: take the region at `next_packet`, link it into
`ot[z]` of the active buffer (`addPrim` prepends to the bucket chain), bump
`next_packet` by `size`, then `assert` the cursor is still within the arena.
The assertion failure is modelled as `none`. -/
def new_primitive (c : RenderContext) (z : Nat) (size : Nat) :
    Option (Nat × RenderContext) :=
  let prim := c.next_packet
  let buf := c.bufAt c.active_buffer
  let buf' : RenderBuffer := { ot := buf.ot.set z (prim :: buf.ot.getD z []) }
  let c' := { c.setBufAt c.active_buffer buf' with next_packet := c.next_packet + size }
  if c'.next_packet ≤ BUFFER_LENGTH then some (prim, c') else none

/-- A frame's sequence of `new_primitive` calls, each request a pair
(depth bucket, size); returns the offsets handed out plus the final
context, or `none` if some call tripped the capacity assertion. -/
def allocMany : RenderContext → List (Nat × Nat) → Option (List Nat × RenderContext)
  | c, [] => some ([], c)
  | c, (z, sz) :: rest =>
    match new_primitive c z sz with
    | none => none
    | some (p, c') =>
      match allocMany c' rest with
      | none => none
      | some (ps, c'') => some (p :: ps, c'')

/-- Order in which the GPU processes (hence draws) the primitives of a
buffer submitted by `DrawOTagEnv(&ot[OT_LENGTH - 1], ...)` over the
reversed table: buckets from index `OT_LENGTH - 1` down to `0`, each
bucket's chain in stored order (most recently inserted first). -/
def drawOrder (b : RenderBuffer) : List Nat :=
  (List.range OT_LENGTH).reverse.flatMap (fun z => b.ot.getD z [])

/-- The offsets successively handed out by the arena: starting cursor `s`,
each request of the size list is placed at the cursor and bumps it. -/
def offsetsFrom : Nat → List Nat → List Nat
  | _, [] => []
  | s, x :: xs => s :: offsetsFrom (s + x) xs

/-- The arena offsets, in allocation order, of the requests of `reqs` whose
depth bucket is `b`, when the cursor starts at `s` (each request bumps the
cursor by its size whatever its bucket). -/
def bucketOffsets : Nat → List (Nat × Nat) → Nat → List Nat
  | _, [], _ => []
  | s, (z, sz) :: rest, b =>
    if z = b then s :: bucketOffsets (s + sz) rest b
    else bucketOffsets (s + sz) rest b

/-- A fresh frame start: what `flip_buffers` (or `setup_context`) leaves the
active buffer in — empty reversed ordering table, cursor at the arena start. -/
def RenderContext.freshFrame (c : RenderContext) : Prop :=
  c.next_packet = 0 ∧ (c.bufAt c.active_buffer).ot = clearOTagR

instance (c : RenderContext) : Decidable c.freshFrame := by
  unfold RenderContext.freshFrame; infer_instance

/-! ## Stream read scheduler (CD-sourced ring-buffer feeder) -/

/-- Abstract view of one track's ring-buffer feeder (`Stream_Context` of the
external stream library): `refillLength` is what `Stream_GetRefillLength`
reports (bytes of free space) and `feedPtrBytes` what `Stream_GetFeedPtr`
reports (bytes writable at the returned pointer). -/
structure FeederView where
  refillLength : Nat
  feedPtrBytes : Nat
deriving DecidableEq, Repr

/-- `StreamReadContext` of main.c.  `next_sector` is a C `int` and may be
negative (modelled as `Int`); `refill_length` is a `size_t`. -/
structure StreamReadContext where
  start_lba : Int
  stream_length : Int
  sample_rate : Int
  next_sector : Int
  refill_length : Nat
deriving DecidableEq, Repr

/-- A CD read issued through `CdRead(refill_length, ptr, CdlModeSpeed)` after
`CdlSetloc` to `start_lba + next_sector`: its position (as an LBA, the value
passed to `CdIntToPos`) and its sector count. -/
structure DriveRead where
  pos : Int
  count : Nat
deriving DecidableEq, Repr

/-- The `while (max_length <= 0) { next_sector -= stream_length;
max_length += stream_length; }` loop of `feed_stream`: `max_length <= 0` is
`len <= next`.  The C loop terminates exactly when `0 < len`; the guard's
`0 < len` conjunct makes the Lean recursion total on the inputs where the C
loop terminates (on `len <= 0` the C loop would spin forever). -/
def wrapLoop (len : Int) (next : Int) : Int :=
  if h : 0 < len ∧ len ≤ next then wrapLoop len (next - len) else next
termination_by next.toNat
decreasing_by
  rcases h with ⟨h1, h2⟩
  omega

/-- `feed_stream` of main.c.  `busy` abstracts `CdReadSync(1, 0) > 0` (a read
is still in progress); `fv` is what the passed `Stream_Context` reports to
the two query calls.  Returns the C return value, the updated read context,
and the read issued (if any).  The feeder itself is not modified:
`feed_stream` only queries it. -/
def feed_stream (busy : Bool) (rc : StreamReadContext) (fv : FeederView) :
    Bool × StreamReadContext × Option DriveRead :=
  if busy then (true, rc, none)
  else if fv.refillLength < REFILL_THRESHOLD * 2048 then (false, rc, none)
  else
    let refill0 : Nat := fv.feedPtrBytes / 2048
    let next := wrapLoop rc.stream_length rc.next_sector
    let maxLen := rc.stream_length - next
    let refill : Nat := if (refill0 : Int) > maxLen then maxLen.toNat else refill0
    (true,
     { rc with next_sector := next + refill, refill_length := refill },
     some ⟨rc.start_lba + next, refill⟩)

/-- The global audio-test state of main.c that the claims touch:
`currentTrackIndex`, the per-track read contexts, the per-track feeder
views, the pause flags, the drive-busy flag, and `fed t` — the running total
of bytes passed to `Stream_Feed(&stream_ctx[t], ...)`. -/
structure AudioState where
  currentTrackIndex : Fin 4
  read_ctx : Fin 4 → StreamReadContext
  feeder : Fin 4 → FeederView
  paused : Fin 4 → Bool
  driveBusy : Bool
  fed : Fin 4 → Nat

/-- `cd_read_handler` of main.c: unless the event is `CdlDiskError`, call
`Stream_Feed(&stream_ctx[currentTrackIndex],
read_ctx[currentTrackIndex].refill_length * 2048)` — both indexed by the
value of `currentTrackIndex` at the moment the callback fires. -/
def cd_read_handler (diskError : Bool) (s : AudioState) : AudioState :=
  if diskError then s
  else
    { s with
      fed := Function.update s.fed s.currentTrackIndex
        (s.fed s.currentTrackIndex
          + (s.read_ctx s.currentTrackIndex).refill_length * 2048) }

/-- The feeder call at the top of `DrawAudioTest` in main.c:
`feed_stream(&read_ctx[currentTrackIndex], &stream_ctx[currentTrackIndex])`
is executed unconditionally, every frame the audio test draws, before the
`loadedTracks` check and with no look at `pausedTracks`.  Returns the
`buffering` flag, the new state, and the read issued (if any). -/
def drawAudioTest_feed (s : AudioState) : Bool × AudioState × Option DriveRead :=
  let r := feed_stream s.driveBusy (s.read_ctx s.currentTrackIndex)
    (s.feeder s.currentTrackIndex)
  (r.1,
   { s with read_ctx := Function.update s.read_ctx s.currentTrackIndex r.2.1 },
   r.2.2)

/-- The track-switch branch of `HandleAudioTestCommands` (triangle press):
`Stream_Stop(); currentTrackIndex++; if (currentTrackIndex >= MAX_SONGS)
currentTrackIndex = 0;` (the conditional `Stream_Start` does not touch the
state modelled here). -/
def switchTrack (s : AudioState) : AudioState :=
  { s with currentTrackIndex := ⟨(s.currentTrackIndex.val + 1) % 4, by omega⟩ }

/-- The three sample-rate branches of `HandleAudioTestCommands` in main.c,
run in their source order within one handler call.  `native` is
`read_ctx[currentTrackIndex].sample_rate`, `r0` the current
`sampleRate[currentTrackIndex]`; `d`, `u`, `c` tell whether the DOWN-held,
UP-held and CROSS-edge conditions fired this call.  The returned list holds
the successive arguments passed to `Stream_SetSampleRate`. -/
def handleSampleRate (native r0 : Int) (d u c : Bool) : Int × List Int :=
  let s1 : Int × List Int :=
    if d && decide (r0 > 11000) then (r0 - 100, [r0 - 100]) else (r0, [])
  let s2 : Int × List Int :=
    if u && decide (s1.1 < 88200) then (s1.1 + 100, s1.2 ++ [s1.1 + 100]) else s1
  if c then (native, s2.2 ++ [native]) else s2

/-! ## Track opening (`setup_stream`) -/

/-- Byte-swap of a 32-bit value (`__builtin_bswap32`), used by main.c to read
the big-endian `size` and `sample_rate` fields of a `.VAG` header. -/
def bswap32 (n : Nat) : Nat :=
  (n % 256) * 2 ^ 24 + (n / 2 ^ 8 % 256) * 2 ^ 16
    + (n / 2 ^ 16 % 256) * 2 ^ 8 + n / 2 ^ 24 % 256

/-- The `.VAG` header fields `setup_stream` consumes, as stored on disc
(little-endian machine): `size` and `sample_rate` still need `bswap32` to
yield their logical values, `interleave` and `channels` are used directly. -/
structure VAG_Header where
  interleave : Nat
  size : Nat
  sample_rate : Nat
  channels : Nat
deriving DecidableEq, Repr

/-- `num_channels` in `setup_stream`: `vag->channels ? vag->channels : 2`. -/
def num_channels (vag : VAG_Header) : Nat :=
  if vag.channels ≠ 0 then vag.channels else 2

/-- `num_chunks` in `setup_stream`:
`(__builtin_bswap32(vag->size) + vag->interleave - 1) / vag->interleave`. -/
def num_chunks (vag : VAG_Header) : Nat :=
  (bswap32 vag.size + vag.interleave - 1) / vag.interleave

/-- `cur_read_ctx->stream_length` as computed by `setup_stream`:
`(num_channels * num_chunks * vag->interleave + 2047) / 2048`. -/
def stream_length_of (vag : VAG_Header) : Nat :=
  (num_channels vag * num_chunks vag * vag.interleave + 2047) / 2048

/-- The read context `setup_stream` installs for the opened track (`pos` is
`CdPosToInt(pos)`). -/
def setup_read_ctx (pos : Int) (vag : VAG_Header) : StreamReadContext :=
  { start_lba := pos + 1
    stream_length := stream_length_of vag
    sample_rate := bswap32 vag.sample_rate
    next_sector := 0
    refill_length := 0 }

/-- Modelled from the spec: `Stream_Init` (in `stream.c`, which is part of
the repository but absent from the sources here) configures the feeder with
`config.buffer_size` bytes of ring buffer and no valid data yet, so
`Stream_GetRefillLength` reports the whole buffer as free space.
`setup_stream` passes `config.buffer_size = RAM_BUFFER_SIZE`. -/
def stream_init_feeder : FeederView :=
  { refillLength := RAM_BUFFER_SIZE, feedPtrBytes := RAM_BUFFER_SIZE }

/-- The whole-system state `setup_stream` acts on: the per-track contexts
and feeders, plus the file-scope `masterReadCtx` / `masterStreamCtx`
globals of main.c (declared at lines 138-139 and referenced nowhere except
`setup_stream`'s pre-fill loop). -/
structure SystemState where
  read_ctx : Fin 4 → StreamReadContext
  feeder : Fin 4 → FeederView
  master_rc : StreamReadContext
  master_feeder : FeederView

/-- The pre-fill loop at the end of `setup_stream`:
`while (feed_stream(&masterReadCtx, &masterStreamCtx)) ;`.  Each iteration
reads the drive-busy flag and `masterStreamCtx`'s query results afresh
(both change asynchronously), so the loop is driven by the list `obs` of
successive observations; it stops when `feed_stream` returns `false` (or
when the observations run out, covering a still-running loop). -/
def masterPrefill : List (Bool × FeederView) → SystemState → SystemState
  | [], s => s
  | (busy, fv) :: rest, s =>
    let r := feed_stream busy s.master_rc fv
    if r.1 then masterPrefill rest { s with master_rc := r.2.1 }
    else { s with master_rc := r.2.1 }

/-- `setup_stream` of main.c for track `t`, restricted to the state the
claims observe: installs the derived read context for `t`, re-initializes
`t`'s feeder via `Stream_Init` (fresh, all free), then runs the pre-fill
loop — which operates on `masterReadCtx` / `masterStreamCtx`, not on the
track being opened. -/
def setup_stream (t : Fin 4) (pos : Int) (vag : VAG_Header)
    (obs : List (Bool × FeederView)) (s : SystemState) : SystemState :=
  masterPrefill obs
    { s with
      read_ctx := Function.update s.read_ctx t (setup_read_ctx pos vag)
      feeder := Function.update s.feeder t stream_init_feeder }

/-! ## Concrete states used by witnesses and counterexamples -/

/-- A concrete render context used by the render-side witnesses: both
ordering tables empty, cursor at the arena start, buffer 0 active. -/
def ctxFresh : RenderContext :=
  { buffer0 := { ot := clearOTagR }
    buffer1 := { ot := clearOTagR }
    next_packet := 0
    active_buffer := 0 }

/-- A concrete read context shared by the stream-side witnesses: track at
LBA 1000, 100 sectors long, cursor at sector 95. -/
def rcW : StreamReadContext :=
  { start_lba := 1000, stream_length := 100, sample_rate := 44100
    next_sector := 95, refill_length := 0 }

/-- A concrete feeder view shared by the stream-side witnesses: free space
exactly at the refill threshold (24 sectors), 10 sectors writable in one
contiguous span. -/
def fvW : FeederView := { refillLength := 49152, feedPtrBytes := 20480 }

/-- A read context whose cursor has gone negative (reachable by seeking
left with `sectors_per_chunk > next_sector > 0`). -/
def rcNeg : StreamReadContext :=
  { start_lba := 1000, stream_length := 100, sample_rate := 44100
    next_sector := -1, refill_length := 0 }

/-- The claim C4 header: logical size 1,048,576 bytes (stored big-endian, so
the raw field holds `bswap32 1048576 = 4096`), interleave 2048, 2 channels. -/
def vagC4 : VAG_Header :=
  { interleave := 2048, size := bswap32 1048576
    sample_rate := bswap32 44100, channels := 2 }

/-- A concrete audio-test state: track 0 selected and PAUSED, drive idle,
track 0's feeder at the refill threshold, cursor at sector 95 of 100. -/
def audioC3 : AudioState :=
  { currentTrackIndex := 0
    read_ctx := fun _ => rcW
    feeder := fun _ => fvW
    paused := fun _ => true
    driveBusy := false
    fed := fun _ => 0 }

/-- A read context at the start of a 100-sector track (cursor 0, nothing
pending). -/
def rcZero : StreamReadContext :=
  { start_lba := 1000, stream_length := 100, sample_rate := 44100
    next_sector := 0, refill_length := 0 }

/-- A concrete audio-test state for the completion-callback claims: track 0
selected and playing, drive idle, all feeders at the refill threshold. -/
def audioC2 : AudioState :=
  { currentTrackIndex := 0
    read_ctx := fun _ => rcZero
    feeder := fun _ => fvW
    paused := fun _ => false
    driveBusy := false
    fed := fun _ => 0 }

/-! ## Helper lemmas: renderer -/

theorem flip_active_toggle (c : RenderContext) (h : c.active_buffer ≤ 1) :
    (flip_buffers c).active_buffer = 1 - c.active_buffer := by
  rcases (by omega : c.active_buffer = 0 ∨ c.active_buffer = 1) with h0 | h0 <;>
    simp [flip_buffers, RenderContext.setBufAt, h0]

theorem flip_active_le_one (c : RenderContext) (h : c.active_buffer ≤ 1) :
    (flip_buffers c).active_buffer ≤ 1 := by
  rw [flip_active_toggle c h]; omega

theorem flipN_alternates (n : Nat) (c : RenderContext) (h : c.active_buffer ≤ 1) :
    (flipN n c).active_buffer = (c.active_buffer + n) % 2 := by
  induction n generalizing c with
  | zero => simp [flipN]; omega
  | succ n ih =>
    have h' := flip_active_le_one c h
    rw [flipN, ih _ h', flip_active_toggle c h]
    omega

/-- C6: every `flip_buffers` toggles `active_buffer` between 0 and 1 (strict
alternation over any sequence of flips), and on return the newly active
buffer's allocation cursor is reset to the start of its arena and its
ordering table is cleared — hence before any subsequent allocation targets
that buffer. -/
theorem claim_C6 (c : RenderContext) (h : c.active_buffer ≤ 1) :
    (flip_buffers c).active_buffer = 1 - c.active_buffer
      ∧ (∀ n, (flipN n c).active_buffer = (c.active_buffer + n) % 2)
      ∧ (flip_buffers c).next_packet = 0
      ∧ ((flip_buffers c).bufAt (flip_buffers c).active_buffer).ot = clearOTagR := by
  refine ⟨flip_active_toggle c h, fun n => flipN_alternates n c h, ?_, ?_⟩
  · simp [flip_buffers]
  · rcases (by omega : c.active_buffer = 0 ∨ c.active_buffer = 1) with h0 | h0 <;>
      simp [flip_buffers, RenderContext.bufAt, RenderContext.setBufAt, h0]

/-- Witness for C6 at the concrete context `ctxFresh`. -/
theorem claim_C6_witness :
    ctxFresh.active_buffer ≤ 1
      ∧ ((flip_buffers ctxFresh).active_buffer = 1 - ctxFresh.active_buffer
        ∧ (∀ n, (flipN n ctxFresh).active_buffer = (ctxFresh.active_buffer + n) % 2)
        ∧ (flip_buffers ctxFresh).next_packet = 0
        ∧ ((flip_buffers ctxFresh).bufAt
            (flip_buffers ctxFresh).active_buffer).ot = clearOTagR) :=
  ⟨by decide, claim_C6 ctxFresh (by decide)⟩

theorem getD_set_self {α : Type} (l : List α) (i : Nat) (a d : α)
    (h : i < l.length) : (l.set i a).getD i d = a := by
  induction l generalizing i with
  | nil => simp at h
  | cons x xs ih =>
    cases i with
    | zero => rfl
    | succ n => exact ih n (by simpa using h)

theorem getD_set_ne {α : Type} (l : List α) (i j : Nat) (a d : α)
    (h : i ≠ j) : (l.set i a).getD j d = l.getD j d := by
  induction l generalizing i j with
  | nil => rfl
  | cons x xs ih =>
    cases i with
    | zero => cases j with
      | zero => exact absurd rfl h
      | succ m => rfl
    | succ n => cases j with
      | zero => rfl
      | succ m => exact ih n m (by omega)

theorem setBufAt_active (c : RenderContext) (i : Nat) (b : RenderBuffer) :
    (c.setBufAt i b).active_buffer = c.active_buffer := by
  unfold RenderContext.setBufAt; split <;> rfl

theorem setBufAt_bufAt_self (c : RenderContext) (i : Nat) (b : RenderBuffer) :
    (c.setBufAt i b).bufAt i = b := by
  by_cases h : i = 0 <;> simp [RenderContext.setBufAt, RenderContext.bufAt, h]

theorem new_primitive_ok (c : RenderContext) (z sz : Nat)
    (h : c.next_packet + sz ≤ BUFFER_LENGTH) :
    new_primitive c z sz = some (c.next_packet,
      { c.setBufAt c.active_buffer
          { ot := (c.bufAt c.active_buffer).ot.set z
              (c.next_packet :: (c.bufAt c.active_buffer).ot.getD z []) }
        with next_packet := c.next_packet + sz }) := by
  simp only [new_primitive]
  rw [if_pos h]

theorem allocMany_spec (reqs : List (Nat × Nat)) (c : RenderContext)
    (h : c.next_packet + (reqs.map Prod.snd).sum ≤ BUFFER_LENGTH)
    (hz : ∀ r ∈ reqs, r.1 < (c.bufAt c.active_buffer).ot.length) :
    ∃ c', allocMany c reqs = some (offsetsFrom c.next_packet (reqs.map Prod.snd), c')
      ∧ c'.next_packet = c.next_packet + (reqs.map Prod.snd).sum
      ∧ c'.active_buffer = c.active_buffer
      ∧ (c'.bufAt c'.active_buffer).ot.length = (c.bufAt c.active_buffer).ot.length
      ∧ ∀ b, (c'.bufAt c'.active_buffer).ot.getD b []
          = (bucketOffsets c.next_packet reqs b).reverse
              ++ (c.bufAt c.active_buffer).ot.getD b [] := by
  induction reqs generalizing c with
  | nil =>
    exact ⟨c, by simp [allocMany, offsetsFrom], by simp, rfl, rfl,
      fun b => by simp [bucketOffsets]⟩
  | cons head rest ih =>
    obtain ⟨z, sz⟩ := head
    simp only [List.map_cons, List.sum_cons] at h
    have hstep : c.next_packet + sz ≤ BUFFER_LENGTH := by omega
    set c1 : RenderContext :=
      { c.setBufAt c.active_buffer
          { ot := (c.bufAt c.active_buffer).ot.set z
              (c.next_packet :: (c.bufAt c.active_buffer).ot.getD z []) }
        with next_packet := c.next_packet + sz } with hc1
    have hnew := new_primitive_ok c z sz hstep
    have hc1np : c1.next_packet = c.next_packet + sz := rfl
    have hc1a : c1.active_buffer = c.active_buffer := by
      show (c.setBufAt c.active_buffer _).active_buffer = c.active_buffer
      exact setBufAt_active _ _ _
    have hc1buf : c1.bufAt c1.active_buffer
        = RenderBuffer.mk ((c.bufAt c.active_buffer).ot.set z (c.next_packet :: (c.bufAt c.active_buffer).ot.getD z [])) := by
      rw [hc1a]
      show (c.setBufAt c.active_buffer _).bufAt c.active_buffer = _
      exact setBufAt_bufAt_self _ _ _
    have hzhead : z < (c.bufAt c.active_buffer).ot.length := hz (z, sz) (by simp)
    have hc1len : (c1.bufAt c1.active_buffer).ot.length
        = (c.bufAt c.active_buffer).ot.length := by
      rw [hc1buf]; simp
    have hrest : ∀ r ∈ rest, r.1 < (c1.bufAt c1.active_buffer).ot.length := by
      intro r hr; rw [hc1len]; exact hz r (by simp [hr])
    have hsum : c1.next_packet + (rest.map Prod.snd).sum ≤ BUFFER_LENGTH := by
      rw [hc1np]; omega
    obtain ⟨c', he, hnp, ha, hlen, hot⟩ := ih c1 hsum hrest
    refine ⟨c', ?_, ?_, ?_, ?_, ?_⟩
    · simp only [allocMany, hnew, List.map_cons]
      rw [he, hc1np]
      simp [offsetsFrom]
    · rw [hnp, hc1np]; simp; omega
    · rw [ha, hc1a]
    · rw [hlen, hc1len]
    · intro b
      rw [hot b, hc1np]
      rw [hc1buf]
      by_cases hb : z = b
      · subst hb
        rw [getD_set_self _ _ _ _ hzhead]
        simp [bucketOffsets]
      · rw [getD_set_ne _ _ _ _ _ hb]
        simp [bucketOffsets, hb]

theorem allocMany_cursor (reqs : List (Nat × Nat)) (c : RenderContext)
    (h : c.next_packet + (reqs.map Prod.snd).sum ≤ BUFFER_LENGTH) :
    ∃ c', allocMany c reqs = some (offsetsFrom c.next_packet (reqs.map Prod.snd), c')
      ∧ c'.next_packet = c.next_packet + (reqs.map Prod.snd).sum := by
  induction reqs generalizing c with
  | nil => exact ⟨c, by simp [allocMany, offsetsFrom], by simp⟩
  | cons head rest ih =>
    obtain ⟨z, sz⟩ := head
    simp only [List.map_cons, List.sum_cons] at h
    have hnew := new_primitive_ok c z sz (by omega)
    set c1 : RenderContext :=
      { c.setBufAt c.active_buffer (RenderBuffer.mk ((c.bufAt c.active_buffer).ot.set z (c.next_packet :: (c.bufAt c.active_buffer).ot.getD z []))) with next_packet := c.next_packet + sz } with hc1
    have hc1np : c1.next_packet = c.next_packet + sz := rfl
    obtain ⟨c', he, hnp⟩ := ih c1 (by rw [hc1np]; omega)
    refine ⟨c', ?_, ?_⟩
    · simp only [allocMany, hnew, List.map_cons]
      rw [he, hc1np]
      simp [offsetsFrom]
    · rw [hnp, hc1np]; simp only [List.map_cons, List.sum_cons]; omega

/-- C7: within one frame (cursor starting at the arena base), any sequence of
`new_primitive` calls whose total requested size fits in `BUFFER_LENGTH`
succeeds on every call (the capacity assertion never fires), each call
returns the region starting at the cursor value before that call
(`offsetsFrom 0` is exactly the list of prior cursor values), and the cursor
ends advanced by exactly the sum of the requested sizes. -/
theorem claim_C7 (c : RenderContext) (reqs : List (Nat × Nat))
    (h0 : c.next_packet = 0)
    (h : (reqs.map Prod.snd).sum ≤ BUFFER_LENGTH) :
    ∃ c', allocMany c reqs = some (offsetsFrom 0 (reqs.map Prod.snd), c')
      ∧ c'.next_packet = (reqs.map Prod.snd).sum := by
  obtain ⟨c', he, hnp⟩ := allocMany_cursor reqs c (by omega)
  rw [h0] at he hnp
  exact ⟨c', he, by omega⟩

/-- Witness for C7 at the concrete context `ctxFresh` with two requests. -/
theorem claim_C7_witness :
    ctxFresh.next_packet = 0
      ∧ (([((1 : Nat), (16 : Nat)), (2, 32)]).map Prod.snd).sum ≤ BUFFER_LENGTH
      ∧ ∃ c', allocMany ctxFresh [(1, 16), (2, 32)]
            = some (offsetsFrom 0 (([((1 : Nat), (16 : Nat)), (2, 32)]).map Prod.snd), c')
          ∧ c'.next_packet = (([((1 : Nat), (16 : Nat)), (2, 32)]).map Prod.snd).sum :=
  ⟨rfl, by decide, claim_C7 ctxFresh [(1, 16), (2, 32)] rfl (by decide)⟩

theorem getD_replicate_nil (n z : Nat) :
    (List.replicate n ([] : List Nat)).getD z [] = [] := by
  induction n generalizing z with
  | zero => rfl
  | succ n ih =>
    cases z with
    | zero => rfl
    | succ m => exact ih m

theorem flatMap_congr {α β : Type} {l : List α} {f g : α → List β}
    (h : ∀ a ∈ l, f a = g a) : l.flatMap f = l.flatMap g := by
  induction l with
  | nil => rfl
  | cons a l ih =>
    simp only [List.flatMap_cons]
    rw [h a (by simp), ih (fun x hx => h x (by simp [hx]))]

/-- C9 amended: starting from a fresh frame, a successful sequence of
allocations yields a GPU processing order equal to — buckets from the
highest index (`OT_LENGTH - 1`) down to bucket 0, each bucket's primitives
in REVERSE allocation order (the most recently allocated primitive of a
bucket is drawn first; the first allocated is drawn last, overdrawing the
later ones).  The cross-bucket part of the original claim (higher buckets
drawn before lower ones, e.g. bucket 5 before bucket 2) is captured by the
outer traversal `(List.range OT_LENGTH).reverse`; the same-bucket
tie-break is `(bucketOffsets 0 reqs z).reverse`, the reverse of allocation
order, because `addPrim` prepends to the bucket chain. -/
theorem claim_C9_amended (c : RenderContext) (reqs : List (Nat × Nat))
    (hf : c.freshFrame) (hz : ∀ r ∈ reqs, r.1 < OT_LENGTH)
    (h : (reqs.map Prod.snd).sum ≤ BUFFER_LENGTH) :
    ∃ c', allocMany c reqs = some (offsetsFrom 0 (reqs.map Prod.snd), c')
      ∧ drawOrder (c'.bufAt c'.active_buffer)
          = (List.range OT_LENGTH).reverse.flatMap
              (fun z => (bucketOffsets 0 reqs z).reverse) := by
  obtain ⟨h0, hot⟩ := hf
  have hlen : (c.bufAt c.active_buffer).ot.length = OT_LENGTH := by
    rw [hot]; simp [clearOTagR]
  obtain ⟨c', he, hnp, ha, hl, hb⟩ :=
    allocMany_spec reqs c (by omega) (fun r hr => by rw [hlen]; exact hz r hr)
  rw [h0] at he hb
  refine ⟨c', he, ?_⟩
  unfold drawOrder
  apply flatMap_congr
  intro z hzmem
  rw [hb z, hot]
  simp [clearOTagR, getD_replicate_nil]

/-- Counterexample to C9 as stated: allocate two primitives into the same
bucket 3 of a fresh frame.  The arena hands them out at offsets 0 then 8
(allocation order), but the GPU processing order is `[8, 0]`: the
second-allocated primitive (offset 8) is drawn FIRST and the
first-allocated (offset 0) drawn last — the opposite of the claim's
"first allocated drawn first and overdrawn by later same-bucket
primitives". -/
theorem claim_C9_counterexample :
    (allocMany ctxFresh [(3, 8), (3, 8)]).map Prod.fst = some [0, 8]
      ∧ (allocMany ctxFresh [(3, 8), (3, 8)]).map
          (fun r => drawOrder (r.2.bufAt r.2.active_buffer)) = some [8, 0]
      ∧ ([8, 0] : List Nat).indexOf 8 < ([8, 0] : List Nat).indexOf 0 := by
  refine ⟨by decide, by decide, by decide⟩

/-- Witness for C9's amended theorem: one primitive in bucket 5, one in
bucket 2; the draw order puts the bucket-5 primitive (offset 0) first. -/
theorem claim_C9_witness :
    ctxFresh.freshFrame
      ∧ (∀ r ∈ [((5 : Nat), (8 : Nat)), (2, 8)], r.1 < OT_LENGTH)
      ∧ (([((5 : Nat), (8 : Nat)), (2, 8)]).map Prod.snd).sum ≤ BUFFER_LENGTH
      ∧ ∃ c', allocMany ctxFresh [(5, 8), (2, 8)]
            = some (offsetsFrom 0 (([((5 : Nat), (8 : Nat)), (2, 8)]).map Prod.snd), c')
          ∧ drawOrder (c'.bufAt c'.active_buffer)
              = (List.range OT_LENGTH).reverse.flatMap
                  (fun z => (bucketOffsets 0 [((5 : Nat), (8 : Nat)), (2, 8)] z).reverse) :=
  ⟨by decide, by decide, by decide,
    claim_C9_amended ctxFresh [(5, 8), (2, 8)] (by decide) (by decide) (by decide)⟩

/-! ## Helper lemmas: stream scheduler -/

theorem wrapLoop_closed (len next : Int) (h : 0 < len) :
    wrapLoop len next = if len ≤ next then next % len else next := by
  induction next using wrapLoop.induct len with
  | case1 next hcond ih =>
    rw [wrapLoop, dif_pos hcond, ih]
    rcases hcond with ⟨h1, h2⟩
    by_cases h3 : len ≤ next - len
    · rw [if_pos h3, if_pos h2, Int.emod_sub_cancel]
    · rw [if_neg h3, if_pos h2, ← Int.emod_sub_cancel next len,
        Int.emod_eq_of_lt (by omega) (by omega)]
  | case2 next hcond =>
    rw [wrapLoop, dif_neg hcond]
    rw [if_neg (fun hle => hcond ⟨h, hle⟩)]

/-- C8: when the drive is still busy with a previously issued read
(`CdReadSync(1, 0) > 0`), `feed_stream` returns `true` immediately: no
second read is issued (`none`), and the read context — `next_sector` and
the pending `refill_length` record included — is returned unchanged.  The
feeder is untouched as well: `feed_stream` only ever queries it, and with
no read issued there is no completion that could feed it. -/
theorem claim_C8 (busy : Bool) (rc : StreamReadContext) (fv : FeederView)
    (h : busy = true) :
    feed_stream busy rc fv = (true, rc, none) := by
  subst h; rfl

/-- Witness for C8 at a concrete busy drive. -/
theorem claim_C8_witness :
    (true : Bool) = true ∧ feed_stream true rcW fvW = (true, rcW, none) :=
  ⟨rfl, claim_C8 true rcW fvW rfl⟩

/-- C5 amended: whenever `feed_stream` issues a read (drive idle, free
space at or above the threshold, positive track length), the drive position
is `start_lba` plus the cursor wrapped by the pre-read loop — which reduces
the cursor modulo `stream_length` ONLY when it is at or past the track end
(`stream_length ≤ next_sector`); a negative cursor is used as-is, NOT
reduced modulo.  The requested span is capped at the remaining sectors to
the logical end (`min` of the feeder span and `stream_length - wrapped`),
so it never crosses the end, and the cursor advances to `wrapped + count`
(hence a cursor left exactly at the end wraps to 0 on the next call). -/
theorem claim_C5_amended (rc : StreamReadContext) (fv : FeederView)
    (hlen : 0 < rc.stream_length)
    (hfree : REFILL_THRESHOLD * 2048 ≤ fv.refillLength) :
    ∃ rd rc', feed_stream false rc fv = (true, rc', some rd)
      ∧ rd.pos = rc.start_lba + wrapLoop rc.stream_length rc.next_sector
      ∧ wrapLoop rc.stream_length rc.next_sector
          = (if rc.stream_length ≤ rc.next_sector
             then rc.next_sector % rc.stream_length else rc.next_sector)
      ∧ rd.count = min (fv.feedPtrBytes / 2048)
          (rc.stream_length - wrapLoop rc.stream_length rc.next_sector).toNat
      ∧ wrapLoop rc.stream_length rc.next_sector + (rd.count : Int)
          ≤ rc.stream_length
      ∧ rc'.next_sector = wrapLoop rc.stream_length rc.next_sector + (rd.count : Int)
      ∧ rc'.refill_length = rd.count
      ∧ rc'.start_lba = rc.start_lba
      ∧ rc'.stream_length = rc.stream_length := by
  have hnl : ¬ (fv.refillLength < REFILL_THRESHOLD * 2048) := not_lt.mpr hfree
  have hwr := wrapLoop_closed rc.stream_length rc.next_sector hlen
  have hwlt : wrapLoop rc.stream_length rc.next_sector < rc.stream_length := by
    rw [hwr]
    split
    · exact Int.emod_lt_of_pos _ hlen
    · omega
  simp only [feed_stream, Bool.false_eq_true, if_false, if_neg hnl]
  refine ⟨_, _, rfl, rfl, hwr, ?_, ?_, rfl, rfl, rfl, rfl⟩
  · dsimp only
    split <;> omega
  · dsimp only
    split <;> omega

/-- Counterexample to C5 as stated: with `stream_length = 100` and a
negative cursor `next_sector = -1`, the issued read is positioned at
`start_lba - 1 = 999`, not at `start_lba` plus the cursor reduced modulo
the track length (`1000 + (-1 mod 100) = 1099`): a negative cursor is not
wrapped by `feed_stream`. -/
theorem claim_C5_counterexample :
    (feed_stream false rcNeg fvW).2.2 = some ⟨999, 10⟩
      ∧ (999 : Int) ≠ rcNeg.start_lba + rcNeg.next_sector % rcNeg.stream_length := by
  have hw : wrapLoop (100 : Int) (-1) = -1 := by
    rw [wrapLoop_closed _ _ (by norm_num)]; norm_num
  constructor
  · norm_num [feed_stream, rcNeg, fvW, hw, REFILL_THRESHOLD]
  · decide

/-- Witness for C5's amended theorem at the claim's own scenario:
`stream_length = 100`, `next_sector = 95`, a 10-sector refill request.
The concrete conjuncts check the cap to 5 sectors (`next_sector` becomes
100, the read spans sectors 95..99) and that a cursor at 100 wraps to 0. -/
theorem claim_C5_witness :
    0 < rcW.stream_length
      ∧ REFILL_THRESHOLD * 2048 ≤ fvW.refillLength
      ∧ (∃ rd rc', feed_stream false rcW fvW = (true, rc', some rd)
          ∧ rd.pos = rcW.start_lba + wrapLoop rcW.stream_length rcW.next_sector
          ∧ wrapLoop rcW.stream_length rcW.next_sector
              = (if rcW.stream_length ≤ rcW.next_sector
                 then rcW.next_sector % rcW.stream_length else rcW.next_sector)
          ∧ rd.count = min (fvW.feedPtrBytes / 2048)
              (rcW.stream_length - wrapLoop rcW.stream_length rcW.next_sector).toNat
          ∧ wrapLoop rcW.stream_length rcW.next_sector + (rd.count : Int)
              ≤ rcW.stream_length
          ∧ rc'.next_sector
              = wrapLoop rcW.stream_length rcW.next_sector + (rd.count : Int)
          ∧ rc'.refill_length = rd.count
          ∧ rc'.start_lba = rcW.start_lba
          ∧ rc'.stream_length = rcW.stream_length)
      ∧ (feed_stream false rcW fvW).2.1.next_sector = 100
      ∧ (feed_stream false rcW fvW).2.2 = some ⟨1095, 5⟩
      ∧ wrapLoop 100 100 = 0 := by
  have hw : wrapLoop (100 : Int) 95 = 95 := by
    rw [wrapLoop_closed _ _ (by norm_num)]; norm_num
  refine ⟨by decide, by decide,
    claim_C5_amended rcW fvW (by decide) (by decide), ?_, ?_, ?_⟩
  · norm_num [feed_stream, rcW, fvW, hw, REFILL_THRESHOLD]
  · norm_num [feed_stream, rcW, fvW, hw, REFILL_THRESHOLD]
    decide
  · rw [wrapLoop_closed _ _ (by norm_num)]; norm_num

/-- C4 amended: `setup_stream` computes `num_chunks` as
`ceil(size / interleave)` and `stream_length` as
`ceil(channels * chunks * interleave / 2048)` (the general formula of the
claim holds, stated with Mathlib's ceiling division `⌈/⌉` on naturals), but
for `S = 1048576`, `I = 2048`, `C = 2` the chunk count is 512 and the total
sector length is 1024, not the 512 the claim asserts. -/
theorem claim_C4_amended :
    (∀ vag : VAG_Header,
        num_chunks vag = bswap32 vag.size ⌈/⌉ vag.interleave
          ∧ stream_length_of vag
              = (num_channels vag * num_chunks vag * vag.interleave) ⌈/⌉ 2048)
      ∧ bswap32 vagC4.size = 1048576
      ∧ num_channels vagC4 = 2
      ∧ num_chunks vagC4 = 512
      ∧ stream_length_of vagC4 = 1024 := by
  refine ⟨fun vag => ⟨?_, ?_⟩, by decide, by decide, by decide, by decide⟩
  · rw [Nat.ceilDiv_eq_add_pred_div]; rfl
  · rw [Nat.ceilDiv_eq_add_pred_div]
    unfold stream_length_of
    generalize num_channels vag * num_chunks vag * vag.interleave = X
    omega

/-- Counterexample to C4 as stated: at the claim's own concrete values the
computed total sector length is 1024, not 512 (two channels of 512 chunks of
2048 bytes are 2,097,152 bytes = 1024 sectors). -/
theorem claim_C4_counterexample :
    stream_length_of vagC4 = 1024 ∧ (1024 : Nat) ≠ 512 :=
  ⟨by decide, by decide⟩

/-- C10: the sample-rate command handling of `HandleAudioTestCommands`
preserves `10901 ≤ rate ≤ 88299` whenever the track's native rate lies in
`[11000, 88200]` (the initial rate is the native rate, which satisfies the
invariant): the DOWN branch subtracts exactly 100 and only when the rate
exceeds 11000, the UP branch adds exactly 100 and only when the rate is
below 88200, CROSS restores the native rate, and whenever the rate changed,
the last `Stream_SetSampleRate` call of the handler passed exactly the new
rate. -/
theorem claim_C10 (native r : Int) (d u c : Bool)
    (hn1 : 11000 ≤ native) (hn2 : native ≤ 88200)
    (hr1 : 10901 ≤ r) (hr2 : r ≤ 88299) :
    (10901 ≤ (handleSampleRate native r d u c).1
        ∧ (handleSampleRate native r d u c).1 ≤ 88299)
      ∧ (c = true → (handleSampleRate native r d u c).1 = native)
      ∧ (d = true → u = false → c = false →
          (handleSampleRate native r d u c).1
            = if 11000 < r then r - 100 else r)
      ∧ (u = true → d = false → c = false →
          (handleSampleRate native r d u c).1
            = if r < 88200 then r + 100 else r)
      ∧ ((handleSampleRate native r d u c).1 ≠ r →
          (handleSampleRate native r d u c).2.getLast?
            = some (handleSampleRate native r d u c).1) := by
  cases d <;> cases u <;> cases c <;>
    simp only [handleSampleRate, Bool.false_and, Bool.true_and, if_false,
      if_true, decide_eq_true_eq, Bool.false_eq_true, Bool.true_eq_false] <;>
    split_ifs <;>
    simp_all [List.getLast?_concat] <;>
    omega

/-- Witness for C10: native rate 44100, current rate 11001, DOWN held. -/
theorem claim_C10_witness :
    (11000 ≤ (44100 : Int) ∧ (44100 : Int) ≤ 88200
        ∧ 10901 ≤ (11001 : Int) ∧ (11001 : Int) ≤ 88299)
      ∧ ((10901 ≤ (handleSampleRate 44100 11001 true false false).1
            ∧ (handleSampleRate 44100 11001 true false false).1 ≤ 88299)
          ∧ (true = true → false = false → false = false →
              (handleSampleRate 44100 11001 true false false).1
                = if 11000 < (11001 : Int) then 11001 - 100 else 11001)
          ∧ ((handleSampleRate 44100 11001 true false false).1 ≠ 11001 →
              (handleSampleRate 44100 11001 true false false).2.getLast?
                = some (handleSampleRate 44100 11001 true false false).1)) := by
  have h := claim_C10 44100 11001 true false false
    (by decide) (by decide) (by decide) (by decide)
  exact ⟨⟨by decide, by decide, by decide, by decide⟩,
    h.1, fun _ _ _ => h.2.2.1 rfl rfl rfl, h.2.2.2.2⟩

theorem feed_stream_isSome (busy : Bool) (rc : StreamReadContext)
    (fv : FeederView) (hb : busy = false)
    (hfree : REFILL_THRESHOLD * 2048 ≤ fv.refillLength) :
    (feed_stream busy rc fv).2.2.isSome = true
      ∧ (feed_stream busy rc fv).1 = true := by
  subst hb
  simp only [feed_stream, Bool.false_eq_true, if_false,
    if_neg (not_lt.mpr hfree)]
  constructor <;> trivial

/-- C3 amended: pausing a track does NOT suppress refilling.  The per-frame
`DrawAudioTest` calls `feed_stream` for the current track unconditionally —
its outcome (the `buffering` flag, the read issued, the read-context
update) is identical under any assignment of the pause flags, and whenever
the drive is idle and the current track's free space is at or above the
threshold a read IS issued, paused or not. -/
theorem claim_C3_amended (s : AudioState) (p : Fin 4 → Bool)
    (hb : s.driveBusy = false)
    (hfree : REFILL_THRESHOLD * 2048
        ≤ (s.feeder s.currentTrackIndex).refillLength) :
    ((drawAudioTest_feed { s with paused := p }).2.2).isSome = true
      ∧ (drawAudioTest_feed { s with paused := p }).2.2
          = (drawAudioTest_feed s).2.2
      ∧ (drawAudioTest_feed { s with paused := p }).1
          = (drawAudioTest_feed s).1
      ∧ (drawAudioTest_feed { s with paused := p }).2.1.read_ctx
          = (drawAudioTest_feed s).2.1.read_ctx := by
  refine ⟨?_, rfl, rfl, rfl⟩
  exact (feed_stream_isSome s.driveBusy (s.read_ctx s.currentTrackIndex)
    (s.feeder s.currentTrackIndex) hb hfree).1

/-- Counterexample to C3 as stated: in `audioC3` the current track is
paused, yet the frame's `feed_stream` call issues a 5-sector drive read
(sectors 95..99 at LBA 1095). -/
theorem claim_C3_counterexample :
    audioC3.paused audioC3.currentTrackIndex = true
      ∧ (drawAudioTest_feed audioC3).2.2 = some ⟨1095, 5⟩ := by
  have hw : wrapLoop (100 : Int) 95 = 95 := by
    rw [wrapLoop_closed _ _ (by norm_num)]; norm_num
  refine ⟨rfl, ?_⟩
  norm_num [drawAudioTest_feed, audioC3, feed_stream, rcW, fvW, hw,
    REFILL_THRESHOLD]
  decide

/-- Witness for C3's amended theorem at the concrete paused state. -/
theorem claim_C3_witness :
    audioC3.driveBusy = false
      ∧ REFILL_THRESHOLD * 2048
          ≤ (audioC3.feeder audioC3.currentTrackIndex).refillLength
      ∧ ((drawAudioTest_feed { audioC3 with paused := fun _ => true }).2.2).isSome
          = true :=
  ⟨rfl, by decide,
    (claim_C3_amended audioC3 (fun _ => true) rfl (by decide)).1⟩

/-- C2 amended: `cd_read_handler` feeds the feeder of the track that
`currentTrackIndex` designates AT THE MOMENT THE CALLBACK FIRES, by that
track's recorded `refill_length * 2048` bytes, leaving every other track's
feeder untouched (and does nothing on `CdlDiskError`).  This equals the
issuing track's requested span exactly when the current track has not been
switched between issue and completion; it is not a per-read guarantee tied
to the issuing track. -/
theorem claim_C2_amended (s : AudioState) :
    cd_read_handler true s = s
      ∧ (cd_read_handler false s).fed s.currentTrackIndex
          = s.fed s.currentTrackIndex
            + (s.read_ctx s.currentTrackIndex).refill_length * 2048
      ∧ ∀ u : Fin 4, u ≠ s.currentTrackIndex →
          (cd_read_handler false s).fed u = s.fed u := by
  refine ⟨rfl, ?_, ?_⟩
  · simp [cd_read_handler]
  · intro u hu
    simp [cd_read_handler, Function.update_noteq hu]

/-- Counterexample to C2 as stated: from `audioC2` the frame tick issues a
10-sector read for track 0 (recorded in track 0's `refill_length`); the
user then switches to track 1 before the read completes; when the
completion callback fires, track 0's feeder receives nothing (0 bytes, not
the issued 10·2048) — the span is not marked valid in the feeder of the
track the read was issued for. -/
theorem claim_C2_counterexample :
    (drawAudioTest_feed audioC2).2.2 = some ⟨1000, 10⟩
      ∧ ((drawAudioTest_feed audioC2).2.1.read_ctx 0).refill_length = 10
      ∧ (cd_read_handler false
            (switchTrack (drawAudioTest_feed audioC2).2.1)).fed 0
          = audioC2.fed 0
      ∧ (cd_read_handler false
            (switchTrack (drawAudioTest_feed audioC2).2.1)).fed 0
          ≠ 10 * 2048 := by
  have hw : wrapLoop (100 : Int) 0 = 0 := by
    rw [wrapLoop_closed _ _ (by norm_num)]; norm_num
  refine ⟨?_, ?_, ?_, ?_⟩ <;>
    norm_num [cd_read_handler, switchTrack, drawAudioTest_feed, feed_stream,
      audioC2, rcZero, fvW, hw, REFILL_THRESHOLD, Function.update]

/-- Witness for C2's amended theorem at `audioC2`, with track 1 as the
other, untouched track. -/
theorem claim_C2_witness :
    cd_read_handler true audioC2 = audioC2
      ∧ (cd_read_handler false audioC2).fed audioC2.currentTrackIndex
          = audioC2.fed audioC2.currentTrackIndex
            + (audioC2.read_ctx audioC2.currentTrackIndex).refill_length * 2048
      ∧ (1 : Fin 4) ≠ audioC2.currentTrackIndex
      ∧ (cd_read_handler false audioC2).fed 1 = audioC2.fed 1 :=
  ⟨(claim_C2_amended audioC2).1, (claim_C2_amended audioC2).2.1,
    by decide, (claim_C2_amended audioC2).2.2 1 (by decide)⟩

theorem masterPrefill_tracks (obs : List (Bool × FeederView)) (s : SystemState) :
    (masterPrefill obs s).read_ctx = s.read_ctx
      ∧ (masterPrefill obs s).feeder = s.feeder := by
  induction obs generalizing s with
  | nil => exact ⟨rfl, rfl⟩
  | cons o rest ih =>
    obtain ⟨b, fv⟩ := o
    simp only [masterPrefill]
    split
    · exact ih _
    · exact ⟨rfl, rfl⟩

/-- C1 (code bug): the pre-fill loop at the end of `setup_stream` operates
on the file-scope `masterReadCtx` / `masterStreamCtx` globals, NOT on the
`cur_read_ctx` / `cur_stream_ctx` of the track being opened — so however
long the loop runs and whatever the drive reports, the opened track's read
context and feeder are exactly as freshly initialized: its cursor is 0,
nothing is pending, and its ring buffer is entirely free
(`RAM_BUFFER_SIZE = 0x18000` bytes, which is NOT below the refill
threshold of `24 * 2048` bytes).  The claim's conclusion — that on return
the opened track's free space is below the threshold — therefore fails for
every opened track, contradicting the source comment "Ensure the buffer is
full before starting playback". -/
theorem claim_C1 (t : Fin 4) (pos : Int) (vag : VAG_Header)
    (obs : List (Bool × FeederView)) (s : SystemState) :
    ((setup_stream t pos vag obs s).feeder t).refillLength = RAM_BUFFER_SIZE
      ∧ ¬ (((setup_stream t pos vag obs s).feeder t).refillLength
            < REFILL_THRESHOLD * 2048)
      ∧ (setup_stream t pos vag obs s).read_ctx t = setup_read_ctx pos vag := by
  unfold setup_stream
  obtain ⟨h1, h2⟩ := masterPrefill_tracks obs
    { s with
      read_ctx := Function.update s.read_ctx t (setup_read_ctx pos vag)
      feeder := Function.update s.feeder t stream_init_feeder }
  rw [h1, h2]
  simp [stream_init_feeder, RAM_BUFFER_SIZE, REFILL_THRESHOLD]
